import Mathlib

/-
Verification development for the face-recognition photo app
(src/app.py, src/face_processor.py, src/models.py).

Face encodings are fixed-length numeric vectors; we embed them as lists of
rationals.  The source compares Euclidean distances (numpy floats) against a
tolerance; since `Real.sqrt` is noncomputable in Lean, the executable
embedding carries the exact squared distance `sqDist` and performs the
comparison `distance <= tolerance` as the equivalent decidable test
`0 <= tol ∧ sqDist <= tol^2`; the equivalence with the real Euclidean
distance is proved in `compareFace_true_iff` and `faceDistance_le_iff`.
Similarly the argmin over distances is taken over squared distances
(`Real.sqrt` is monotone), and a persisted FaceMatch row carries the exact
squared distance from which the stored float confidence `1 - distance` is
defined (`FaceMatch.confidence`).
-/

namespace FaceApp

/-- A face encoding: fixed-length numeric feature vector (numpy float array
in the source, embedded as rationals). -/
abbrev Encoding := List ℚ

/-- Squared Euclidean distance between two encodings
(`np.linalg.norm(known - q)` squared). -/
def sqDist (a b : Encoding) : ℚ :=
  (List.zipWith (fun x y => (x - y) ^ 2) a b).sum

/-- The Euclidean distance `face_recognition.face_distance` computes:
the square root of the sum of squared coordinate differences. -/
noncomputable def faceDistance (a b : Encoding) : ℝ :=
  Real.sqrt ((sqDist a b : ℚ) : ℝ)

theorem sqDist_nonneg (a b : Encoding) : 0 ≤ sqDist a b := by
  unfold sqDist
  induction a generalizing b with
  | nil => simp
  | cons x xs ih =>
    cases b with
    | nil => simp
    | cons y ys =>
      simp only [List.zipWith_cons_cons, List.sum_cons]
      have h1 : (0:ℚ) ≤ (x - y) ^ 2 := sq_nonneg _
      have h2 := ih ys
      linarith

theorem faceDistance_nonneg (a b : Encoding) : 0 ≤ faceDistance a b :=
  Real.sqrt_nonneg _

/-- The real comparison `faceDistance a b ≤ tol` is equivalent to the
decidable rational test used by the executable embedding. -/
theorem faceDistance_le_iff (a b : Encoding) (tol : ℚ) :
    faceDistance a b ≤ (tol : ℝ) ↔ (0 ≤ tol ∧ sqDist a b ≤ tol ^ 2) := by
  unfold faceDistance
  constructor
  · intro h
    have htol : (0:ℝ) ≤ (tol : ℝ) := le_trans (Real.sqrt_nonneg _) h
    have h2 : ((sqDist a b : ℚ) : ℝ) ≤ (tol : ℝ) ^ 2 := by
      have := Real.sq_sqrt (show (0:ℝ) ≤ ((sqDist a b : ℚ) : ℝ) by
        exact_mod_cast sqDist_nonneg a b)
      calc ((sqDist a b : ℚ) : ℝ) = Real.sqrt ((sqDist a b : ℚ) : ℝ) ^ 2 := this.symm
        _ ≤ (tol : ℝ) ^ 2 := by
            apply pow_le_pow_left₀ (Real.sqrt_nonneg _) h
    refine ⟨by exact_mod_cast htol, by exact_mod_cast h2⟩
  · rintro ⟨h0, h1⟩
    have : ((sqDist a b : ℚ) : ℝ) ≤ ((tol : ℝ)) ^ 2 := by exact_mod_cast h1
    calc Real.sqrt ((sqDist a b : ℚ) : ℝ) ≤ Real.sqrt ((tol : ℝ) ^ 2) :=
          Real.sqrt_le_sqrt this
      _ = (tol : ℝ) := Real.sqrt_sq (by exact_mod_cast h0)

/-- Monotonicity: comparing real Euclidean distances is the same as
comparing squared distances. -/
theorem faceDistance_le_faceDistance_iff (a b c d : Encoding) :
    faceDistance a b ≤ faceDistance c d ↔ sqDist a b ≤ sqDist c d := by
  unfold faceDistance
  rw [Real.sqrt_le_sqrt_iff (by exact_mod_cast sqDist_nonneg c d)]
  constructor
  · intro h; exact_mod_cast h
  · intro h; exact_mod_cast h

/-- One entry of `face_recognition.compare_faces(known, q, tolerance)`:
the boolean `face_distance(k, q) <= tolerance`, as its decidable rational
equivalent. -/
def compareFace (tol : ℚ) (k q : Encoding) : Bool :=
  decide (0 ≤ tol) && decide (sqDist k q ≤ tol ^ 2)

theorem compareFace_true_iff (tol : ℚ) (k q : Encoding) :
    compareFace tol k q = true ↔ faceDistance k q ≤ (tol : ℝ) := by
  rw [faceDistance_le_iff]
  simp [compareFace]

/-- `np.argmin`: index of the first occurrence of the minimum value
(0 for the empty list). -/
def argminQ : List ℚ → ℕ
  | [] => 0
  | [_] => 0
  | x :: y :: t =>
    let i := argminQ (y :: t)
    if (y :: t).getD i 0 < x then i + 1 else 0

theorem argminQ_cons_cons (x y : ℚ) (t : List ℚ) :
    argminQ (x :: y :: t) =
      if (y :: t).getD (argminQ (y :: t)) 0 < x then argminQ (y :: t) + 1
      else 0 := rfl

theorem argminQ_lt_length : ∀ l : List ℚ, l ≠ [] → argminQ l < l.length
  | [_], _ => by simp [argminQ]
  | x :: y :: t, _ => by
    have ih := argminQ_lt_length (y :: t) (by simp)
    rw [argminQ_cons_cons]
    by_cases h : (y :: t).getD (argminQ (y :: t)) 0 < x
    · rw [if_pos h]
      simp only [List.length_cons] at ih ⊢
      omega
    · rw [if_neg h]
      simp

theorem argminQ_le : ∀ (l : List ℚ) (j : ℕ), j < l.length →
    l.getD (argminQ l) 0 ≤ l.getD j 0
  | [_], j, hj => by
    have hj0 : j = 0 := by simpa using Nat.lt_one_iff.mp (by simpa using hj)
    subst hj0
    simp [argminQ]
  | x :: y :: t, j, hj => by
    have ih := fun j hj => argminQ_le (y :: t) j hj
    rw [argminQ_cons_cons]
    by_cases h : (y :: t).getD (argminQ (y :: t)) 0 < x
    · rw [if_pos h]
      cases j with
      | zero =>
        rw [List.getD_cons_succ, List.getD_cons_zero]
        exact h.le
      | succ j =>
        rw [List.getD_cons_succ, List.getD_cons_succ]
        exact ih j (by simpa using hj)
    · rw [if_neg h]
      push_neg at h
      cases j with
      | zero => exact le_rfl
      | succ j =>
        rw [List.getD_cons_zero, List.getD_cons_succ]
        exact le_trans h (ih j (by simpa using hj))

theorem argminQ_first : ∀ (l : List ℚ) (j : ℕ), j < argminQ l →
    l.getD (argminQ l) 0 < l.getD j 0
  | [_], j, hj => by simp [argminQ] at hj
  | x :: y :: t, j, hj => by
    have ih := fun j hj => argminQ_first (y :: t) j hj
    rw [argminQ_cons_cons] at hj ⊢
    by_cases h : (y :: t).getD (argminQ (y :: t)) 0 < x
    · rw [if_pos h] at hj ⊢
      cases j with
      | zero =>
        rw [List.getD_cons_succ, List.getD_cons_zero]
        exact h
      | succ j =>
        rw [List.getD_cons_succ, List.getD_cons_succ]
        exact ih j (by omega)
    · rw [if_neg h] at hj
      omega

/-! Data model (src/models.py), with uuid identifiers abstracted as naturals
and timestamps omitted (no claim concerns them). -/

/-- A row of the `persons` table.  `face_encoding` is the reference
encoding fixed at creation time. -/
structure Person where
  id : ℕ
  name : String
  face_encoding : Encoding
  thumbnail_s3_key : ℕ
  photo_count : ℕ
deriving DecidableEq

/-- A row of the `photos` table (claim-relevant columns). -/
structure Photo where
  id : ℕ
  s3_key : ℕ
  processed : Bool
  face_count : ℕ
deriving DecidableEq

/-- A row of the `face_matches` table.  The source stores
`confidence = 1.0` for a new person and `confidence = 1 - distance` for a
match; since the real square root is noncomputable we store the exact
squared distance (`none` for a new person) and derive the stored
confidence in `FaceMatch.confidence`. -/
structure FaceMatch where
  id : ℕ
  photo_id : ℕ
  person_id : ℕ
  bounding_box : ℤ × ℤ × ℤ × ℤ
  sq_distance : Option ℚ
  face_encoding : Encoding
deriving DecidableEq

/-- The confidence value the source persists on a FaceMatch row:
`1.0` for a newly created person, `1 - distance` for a matched one. -/
noncomputable def FaceMatch.confidence (fm : FaceMatch) : ℝ :=
  match fm.sq_distance with
  | none => 1
  | some s => 1 - Real.sqrt ((s : ℚ) : ℝ)

/-- Status column of the `processing_queue` table. -/
inductive QStatus where
  | pending
  | processing
  | completed
  | failed
deriving DecidableEq

/-- A row of the `processing_queue` table. -/
structure QueueEntry where
  id : ℕ
  photo_id : ℕ
  status : QStatus
  error_message : Option String
deriving DecidableEq

/-- The database: the four tables, each a list in insertion order. -/
structure DBState where
  photos : List Photo
  persons : List Person
  face_matches : List FaceMatch
  queue : List QueueEntry
deriving DecidableEq

/-- One face produced by the external detector for the current photo:
its encoding, its bounding box `(top, right, bottom, left)`, and the
fresh uuids that `process_single_photo` would draw for the new person row,
the FaceMatch row and the thumbnail key. -/
structure Face where
  encoding : Encoding
  location : ℤ × ℤ × ℤ × ℤ
  fresh_person_id : ℕ
  fresh_match_id : ℕ
  fresh_thumb_key : ℕ
deriving DecidableEq

/-- In-memory working state of the per-face loop of
`process_single_photo`: the session `persons` rows plus the
`known_encodings` / `known_person_ids` lists, the FaceMatch rows added so
far and the `faces_processed` counter. -/
structure WorkSt where
  persons : List Person
  known_encodings : List Encoding
  known_person_ids : List ℕ
  new_matches : List FaceMatch
  faces_processed : ℕ
deriving DecidableEq

/-- Mutate the first element satisfying the predicate (the semantics of
fetching a single ORM row with `first()` / `get()` and assigning to it). -/
def updateFirst (p : α → Bool) (f : α → α) : List α → List α
  | [] => []
  | x :: xs => if p x then f x :: xs else x :: updateFirst p f xs

/-- `queue_item.status = st` on the first queue row of the photo
(lines 70, 91, 179 of face_processor.py). -/
def set_status (pid : ℕ) (st : QStatus) (s : DBState) : DBState :=
  { s with
      queue := updateFirst (fun q => q.photo_id == pid)
        (fun q => { q with status := st }) s.queue }

/-- Lines 185-186 of face_processor.py: set the queue row status to
failed and record the stringified exception as its error message. -/
def set_failed (pid : ℕ) (msg : String) (s : DBState) : DBState :=
  { s with
      queue := updateFirst (fun q => q.photo_id == pid)
        (fun q => { q with status := QStatus.failed,
                           error_message := some msg }) s.queue }

/-- The working state seeded from the single `Person.query.all()` snapshot
taken at the start of the photo (lines 96-103 of face_processor.py). -/
def init_work (ps : List Person) : WorkSt :=
  { persons := ps
    known_encodings := ps.map (fun p => p.face_encoding)
    known_person_ids := ps.map (fun p => p.id)
    new_matches := []
    faces_processed := 0 }

/-- Lines 111-124 of face_processor.py: `compare_faces` against the known
encodings, then `argmin` over `face_distance`, accepted only when the
the match flag at the argmin is set.  Returns the index into the known lists. -/
def matchBestIndex (tol : ℚ) (known : List Encoding) (q : Encoding) :
    Option ℕ :=
  if 0 < known.length then
    let flags := known.map (fun k => compareFace tol k q)
    let dists := known.map (fun k => sqDist k q)
    if flags.contains true then
      let best := argminQ dists
      if flags.getD best false then some best else none
    else none
  else none

/-- One iteration of the per-face loop (lines 108-174 of
face_processor.py): match against the working set; on a match bump the
matched person `photo_count`; otherwise mint a new Person from the
own encoding of the face and append it to the working set; in both cases
record one FaceMatch row. -/
def process_face (tol : ℚ) (photo_id : ℕ) (f : Face) (st : WorkSt) :
    WorkSt :=
  match matchBestIndex tol st.known_encodings f.encoding with
  | some best =>
    let pid := st.known_person_ids.getD best 0
    let s := sqDist (st.known_encodings.getD best []) f.encoding
    let fm : FaceMatch :=
      { id := f.fresh_match_id
        photo_id := photo_id
        person_id := pid
        bounding_box := f.location
        sq_distance := some s
        face_encoding := f.encoding }
    { st with
        persons :=
          updateFirst (fun p => p.id == pid)
            (fun p => { p with photo_count := p.photo_count + 1 })
            st.persons
        new_matches := st.new_matches ++ [fm]
        faces_processed := st.faces_processed + 1 }
  | none =>
    let pid := f.fresh_person_id
    let new_person : Person :=
      { id := pid
        name := "人物 " ++ toString (st.persons.length + 1)
        face_encoding := f.encoding
        thumbnail_s3_key := f.fresh_thumb_key
        photo_count := 1 }
    let fm : FaceMatch :=
      { id := f.fresh_match_id
        photo_id := photo_id
        person_id := pid
        bounding_box := f.location
        sq_distance := none
        face_encoding := f.encoding }
    { persons := st.persons ++ [new_person]
      known_encodings := st.known_encodings ++ [f.encoding]
      known_person_ids := st.known_person_ids ++ [pid]
      new_matches := st.new_matches ++ [fm]
      faces_processed := st.faces_processed + 1 }

/-- The per-face loop.  `i` is the index of the next face; `failAt`
injects the outcome of a fallible external step (thumbnail creation and
the like) raising with message `msg` when the loop reaches face `k`,
before any mutation for that face has been made. -/
def run_faces (tol : ℚ) (photo_id : ℕ) :
    List Face → ℕ → Option (ℕ × String) → WorkSt → WorkSt × Option String
  | [], _, _, st => (st, none)
  | f :: rest, i, failAt, st =>
    match failAt with
    | some (k, msg) =>
      if i = k then (st, some msg)
      else
        run_faces tol photo_id rest (i + 1) (some (k, msg))
          (process_face tol photo_id f st)
    | none =>
      run_faces tol photo_id rest (i + 1) none (process_face tol photo_id f st)

/-- Outcome of the external collaborators (S3 download and face detector)
for one run of `process_single_photo`: download returned `None`, the
detector raised with message `msg`, or detection succeeded with the given
faces (with `fail_at` injecting an error inside the per-face loop). -/
inductive ExtOutcome where
  | download_fail
  | detector_fail (msg : String)
  | detected (faces : List Face) (fail_at : Option (ℕ × String))
deriving DecidableEq

/-- The dict `process_single_photo` returns:
a success value carrying the number of faces found, or an error value
carrying the message. -/
inductive PResult where
  | ok (faces_found : ℕ)
  | err (msg : String)
deriving DecidableEq

/-- Lines 60-188 of face_processor.py: look up the queue row, mark it
`processing`, resolve the Photo, download, detect, run the per-face loop
from a single snapshot of the persons table, and commit the final state;
any raised error commits the session as-is with the queue row `failed`. -/
def process_single_photo (tol : ℚ) (ext : ExtOutcome) (photo_id : ℕ)
    (s : DBState) : DBState × PResult :=
  match s.queue.find? (fun q => q.photo_id == photo_id) with
  | none => (s, PResult.err ("Queue item not found"))
  | some _ =>
    let s1 := set_status photo_id QStatus.processing s
    match s1.photos.find? (fun p => p.id == photo_id) with
    | none =>
      (set_failed photo_id ("Photo not found") s1,
       PResult.err ("Photo not found"))
    | some _ =>
      match ext with
      | ExtOutcome.download_fail =>
        (set_failed photo_id ("Failed to download image from S3") s1,
         PResult.err ("Failed to download image from S3"))
      | ExtOutcome.detector_fail msg =>
        (set_failed photo_id msg s1, PResult.err msg)
      | ExtOutcome.detected faces fail_at =>
        if faces.length = 0 then
          let s2 :=
            { s1 with
                photos := updateFirst (fun p => p.id == photo_id)
                  (fun p => { p with processed := true, face_count := 0 })
                  s1.photos }
          (set_status photo_id QStatus.completed s2, PResult.ok 0)
        else
          match run_faces tol photo_id faces 0 fail_at (init_work s1.persons)
            with
          | (st, none) =>
            let s2 :=
              { s1 with
                  persons := st.persons
                  face_matches := s1.face_matches ++ st.new_matches
                  photos :=
                    updateFirst (fun p => p.id == photo_id)
                      (fun p => { p with processed := true,
                                         face_count := st.faces_processed })
                      s1.photos }
            (set_status photo_id QStatus.completed s2,
             PResult.ok st.faces_processed)
          | (st, some msg) =>
            let s2 :=
              { s1 with
                  persons := st.persons
                  face_matches := s1.face_matches ++ st.new_matches }
            (set_failed photo_id msg s2, PResult.err msg)

/-- Line 165 of app.py:
the query filtering the queue table by pending status with limit 100 —
the batch of entries `start_processing` dispatches to workers, under the
additional stipulation that the backend returns rows in insertion order.
The SQL carries no ORDER BY, so that order is not guaranteed by the
program; `lease_result` below is the faithful model quantifying over
every return order the backend may choose, and `pending_selection` is
one of its admissible results (`lease_result_pending_selection`). -/
def pending_selection (s : DBState) : List QueueEntry :=
  (s.queue.filter (fun q => q.status == QStatus.pending)).take 100

/-- Line 165 of app.py, without stipulating a return order: the query
has no ORDER BY, so a result of the lease query is the first 100 rows of
some arbitrary backend reordering (permutation) of the pending entries. -/
def lease_result (s : DBState) (r : List QueueEntry) : Prop :=
  ∃ perm, List.Perm perm
      (s.queue.filter (fun q => q.status == QStatus.pending)) ∧
    r = perm.take 100

/-- The stipulated-order selection is one admissible result of the
un-ordered query. -/
theorem lease_result_pending_selection (s : DBState) :
    lease_result s (pending_selection s) :=
  ⟨s.queue.filter (fun q => q.status == QStatus.pending),
   List.Perm.refl _, rfl⟩

/-! Matcher lemmas. -/

theorem getD_map_of_lt {α β : Type} (f : α → β) (l : List α) (j : ℕ)
    (hj : j < l.length) (d : α) (d2 : β) :
    (l.map f).getD j d2 = f (l.getD j d) := by
  rw [List.getD_eq_getElem _ _ (by simpa using hj),
      List.getD_eq_getElem _ _ hj, List.getElem_map]

theorem compareFace_rat_iff (tol : ℚ) (k q : Encoding) :
    compareFace tol k q = true ↔ (0 ≤ tol ∧ sqDist k q ≤ tol ^ 2) := by
  simp [compareFace]

/-- If some known encoding is within tolerance, the match flag at the
argmin index is set: the argmin realises the global minimum distance. -/
theorem compareFace_at_argmin (tol : ℚ) (known : List Encoding)
    (q : Encoding)
    (h : ∃ j, j < known.length ∧
      compareFace tol (known.getD j []) q = true) :
    compareFace tol
      (known.getD (argminQ (known.map (fun k => sqDist k q))) []) q
        = true := by
  obtain ⟨j, hj, hflag⟩ := h
  rw [compareFace_rat_iff] at hflag ⊢
  refine ⟨hflag.1, ?_⟩
  have hne : known.map (fun k => sqDist k q) ≠ [] := by
    intro hnil
    rw [List.map_eq_nil_iff] at hnil
    subst hnil
    simp at hj
  have hlt : argminQ (known.map (fun k => sqDist k q)) <
      known.length := by
    have := argminQ_lt_length _ hne
    simpa using this
  have hle := argminQ_le (known.map (fun k => sqDist k q)) j
    (by simpa using hj)
  rw [getD_map_of_lt _ _ _ hlt [], getD_map_of_lt _ _ _ hj []] at hle
  exact le_trans hle hflag.2

/-- A person is a candidate when its real Euclidean distance to the query
is at most the tolerance (§4.2 of the spec). -/
def is_candidate (tol : ℚ) (q k : Encoding) : Prop :=
  faceDistance k q ≤ (tol : ℝ)

/-- The specified matching rule of §4.2, written from the words of the spec as
a relation on the decision (the spec side of the refinement claim C1):
`none` is right when no person is a candidate; `some i` is right when
person `i` is a candidate of minimum distance among the candidates. -/
def spec_decision (tol : ℚ) (known : List Encoding) (q : Encoding) :
    Option ℕ → Prop
  | none => ∀ k ∈ known, ¬ is_candidate tol q k
  | some i =>
    i < known.length ∧ is_candidate tol q (known.getD i []) ∧
      ∀ k ∈ known, is_candidate tol q k →
        faceDistance (known.getD i []) q ≤ faceDistance k q

theorem contains_true_iff_flag (tol : ℚ) (known : List Encoding)
    (q : Encoding) :
    (known.map (fun k => compareFace tol k q)).contains true = true ↔
      ∃ k ∈ known, compareFace tol k q = true := by
  rw [List.contains_iff_exists_mem_beq]
  constructor
  · rintro ⟨b, hb, hbeq⟩
    rw [List.mem_map] at hb
    obtain ⟨k, hk, hfk⟩ := hb
    refine ⟨k, hk, ?_⟩
    rw [hfk]
    simpa using hbeq.symm
  · rintro ⟨k, hk, hfk⟩
    exact ⟨true, by rw [List.mem_map]; exact ⟨k, hk, hfk⟩, by simp⟩

theorem mem_getD_of_mem {α : Type} {l : List α} {k : α} (hk : k ∈ l)
    (d : α) : ∃ j, j < l.length ∧ l.getD j d = k := by
  obtain ⟨j, hj, hget⟩ := List.mem_iff_getElem.mp hk
  exact ⟨j, hj, by rw [List.getD_eq_getElem _ _ hj]; exact hget⟩

/-- Claim C1: the implemented matching procedure (per-person boolean
matches at the tolerance; if any is true, take the index of globally
minimum Euclidean distance and accept that person only if its own match
flag is true) returns the same decision as the specified rule: among
persons whose distance to the query is at most the tolerance, one of
minimum distance; `none` (create a new person) when no person is within
tolerance. -/
theorem matcher_refines_spec (tol : ℚ) (known : List Encoding)
    (q : Encoding) :
    spec_decision tol known q (matchBestIndex tol known q) := by
  unfold matchBestIndex
  by_cases hlen : 0 < known.length
  · rw [if_pos hlen]
    by_cases hc : (known.map (fun k => compareFace tol k q)).contains true
    · rw [if_pos hc]
      have hflag : ∃ j, j < known.length ∧
          compareFace tol (known.getD j []) q = true := by
        obtain ⟨k, hk, hfk⟩ := (contains_true_iff_flag tol known q).mp hc
        obtain ⟨j, hj, hget⟩ := mem_getD_of_mem hk []
        exact ⟨j, hj, by rw [hget]; exact hfk⟩
      have hbest := compareFace_at_argmin tol known q hflag
      have hlt : argminQ (known.map (fun k => sqDist k q)) <
          known.length := by
        have hne : known.map (fun k => sqDist k q) ≠ [] := by
          intro hnil
          rw [List.map_eq_nil_iff] at hnil
          subst hnil
          simp at hlen
        have := argminQ_lt_length _ hne
        simpa using this
      have hgetflag :
          (known.map (fun k => compareFace tol k q)).getD
            (argminQ (known.map (fun k => sqDist k q))) false = true := by
        rw [getD_map_of_lt _ _ _ hlt []]
        exact hbest
      rw [if_pos hgetflag]
      refine ⟨hlt, (compareFace_true_iff tol _ q).mp hbest, ?_⟩
      intro k hk _
      obtain ⟨j, hj, hget⟩ := mem_getD_of_mem hk []
      have hle := argminQ_le (known.map (fun k => sqDist k q)) j
        (by simpa using hj)
      rw [getD_map_of_lt _ _ _ hlt [], getD_map_of_lt _ _ _ hj []] at hle
      rw [← hget]
      exact (faceDistance_le_faceDistance_iff _ _ _ _).mpr hle
    · rw [if_neg hc]
      intro k hk hcand
      apply hc
      rw [contains_true_iff_flag]
      exact ⟨k, hk, (compareFace_true_iff tol k q).mpr hcand⟩
  · rw [if_neg hlen]
    intro k hk _
    have hnil : known = [] := by
      cases known with
      | nil => rfl
      | cons a t => simp at hlen
    subst hnil
    simp at hk

theorem getD_mem_of_lt {α : Type} {l : List α} {j : ℕ} (hj : j < l.length)
    (d : α) : l.getD j d ∈ l := by
  rw [List.getD_eq_getElem _ _ hj]
  exact List.getElem_mem hj

/-- When some match flag is set, `matchBestIndex` returns the argmin of
the distances. -/
theorem matchBestIndex_some_of (tol : ℚ) (known : List Encoding)
    (q : Encoding)
    (h : ∃ j, j < known.length ∧
      compareFace tol (known.getD j []) q = true) :
    matchBestIndex tol known q =
      some (argminQ (known.map (fun k => sqDist k q))) := by
  obtain ⟨j, hj, hflag⟩ := h
  unfold matchBestIndex
  have hlen : 0 < known.length := by omega
  rw [if_pos hlen]
  have hc : (known.map (fun k => compareFace tol k q)).contains true
      = true := by
    rw [contains_true_iff_flag]
    exact ⟨known.getD j [], getD_mem_of_lt hj [], hflag⟩
  rw [if_pos hc]
  have hlt : argminQ (known.map (fun k => sqDist k q)) < known.length := by
    have hne : known.map (fun k => sqDist k q) ≠ [] := by
      intro hnil
      rw [List.map_eq_nil_iff] at hnil
      subst hnil
      simp at hlen
    have := argminQ_lt_length _ hne
    simpa using this
  have hgetflag :
      (known.map (fun k => compareFace tol k q)).getD
        (argminQ (known.map (fun k => sqDist k q))) false = true := by
    rw [getD_map_of_lt _ _ _ hlt []]
    exact compareFace_at_argmin tol known q ⟨j, hj, hflag⟩
  rw [if_pos hgetflag]

/-- When no match flag is set, `matchBestIndex` returns `none`. -/
theorem matchBestIndex_none_of (tol : ℚ) (known : List Encoding)
    (q : Encoding)
    (h : ∀ j, j < known.length →
      compareFace tol (known.getD j []) q = false) :
    matchBestIndex tol known q = none := by
  unfold matchBestIndex
  by_cases hlen : 0 < known.length
  · rw [if_pos hlen]
    have hc : ¬ ((known.map (fun k => compareFace tol k q)).contains true
        = true) := by
      rw [contains_true_iff_flag]
      rintro ⟨k, hk, hfk⟩
      obtain ⟨j, hj, hget⟩ := mem_getD_of_mem hk []
      rw [← hget] at hfk
      rw [h j hj] at hfk
      exact Bool.false_ne_true hfk
    rw [if_neg hc]
  · rw [if_neg hlen]

/-- Default row used as the `getD` fallback in statements. -/
def anyPerson : Person :=
  { id := 0, name := "", face_encoding := [], thumbnail_s3_key := 0,
    photo_count := 0 }

/-- Default face used as the `getD` fallback in statements. -/
def anyFace : Face :=
  { encoding := [], location := (0, 0, 0, 0), fresh_person_id := 0,
    fresh_match_id := 0, fresh_thumb_key := 0 }

/-- With pairwise-distinct person ids, mutating the single ORM row whose
id is that of the `i`-th person mutates exactly position `i`. -/
theorem updateFirst_eq_set :
    ∀ (ps : List Person) (i : ℕ), i < ps.length →
      (ps.map Person.id).Nodup →
      ∀ f : Person → Person,
        updateFirst (fun p => p.id == (ps.getD i anyPerson).id) f ps
          = ps.set i (f (ps.getD i anyPerson))
  | [], i, hi, _, _ => by simp at hi
  | p :: rest, 0, _, _, f => by
    simp [updateFirst]
  | p :: rest, i + 1, hi, hnodup, f => by
    have hi2 : i < rest.length := by simpa using hi
    have hne : ¬ (p.id == (rest.getD i anyPerson).id) = true := by
      simp only [List.map_cons, List.nodup_cons] at hnodup
      intro hbeq
      apply hnodup.1
      have : (rest.getD i anyPerson).id ∈ rest.map Person.id :=
        List.mem_map.mpr ⟨rest.getD i anyPerson, getD_mem_of_lt hi2 _, rfl⟩
      rw [beq_iff_eq] at hbeq
      rw [hbeq]
      exact this
    have ih := updateFirst_eq_set rest i hi2
      (by simp only [List.map_cons, List.nodup_cons] at hnodup
          exact hnodup.2) f
    simp only [List.getD_cons_succ, updateFirst, if_neg hne]
    rw [ih]
    rfl

theorem faceDistance_lt_faceDistance_iff (a b c d : Encoding) :
    faceDistance a b < faceDistance c d ↔ sqDist a b < sqDist c d := by
  rw [← not_le, ← not_le, faceDistance_le_faceDistance_iff]

/-- Claim C4, counterexample: with persons of ids 5 and 3 (in that table
order) whose reference encodings are both `[0]`, a query `[0]` at
tolerance 1 has two candidates tied at the minimum distance 0, yet the
matcher records person 5 — the first index, not the lowest identifier 3. -/
theorem matcher_tie_lowest_id_counterexample :
    (process_face 1 0 ⟨[0], (0, 0, 0, 0), 9, 10, 11⟩
        (init_work
          [⟨5, ("a"), [0], 20, 0⟩, ⟨3, ("b"), [0], 30, 0⟩])).new_matches
      = [⟨10, 0, 5, (0, 0, 0, 0), some 0, [0]⟩] ∧
    is_candidate 1 [0] [0] ∧ (3 : ℕ) < 5 := by
  refine ⟨by norm_num [process_face, matchBestIndex, compareFace, sqDist,
    argminQ, init_work], ?_, by norm_num⟩
  unfold is_candidate
  rw [faceDistance_le_iff]
  norm_num [sqDist]

/-- Claim C4, amended: when the match flags accept, the Matcher selects
the candidate at the first position in the known-person list attaining
the minimum distance (the first occurrence of the numpy argmin), not the
candidate with the lowest person identifier. -/
theorem matcher_selects_first_min (tol : ℚ) (known : List Encoding)
    (q : Encoding) (i : ℕ) (h : matchBestIndex tol known q = some i) :
    i < known.length ∧
    (∀ j, j < known.length →
      faceDistance (known.getD i []) q ≤ faceDistance (known.getD j []) q) ∧
    (∀ j, j < i →
      faceDistance (known.getD i []) q < faceDistance (known.getD j []) q)
    := by
  by_cases hex : ∃ j, j < known.length ∧
      compareFace tol (known.getD j []) q = true
  · rw [matchBestIndex_some_of tol known q hex] at h
    have hi : i = argminQ (known.map (fun k => sqDist k q)) :=
      (Option.some.inj h).symm
    have hne : known.map (fun k => sqDist k q) ≠ [] := by
      intro hnil
      rw [List.map_eq_nil_iff] at hnil
      obtain ⟨j, hj, _⟩ := hex
      subst hnil
      simp at hj
    have hlt : i < known.length := by
      have := argminQ_lt_length _ hne
      rw [← hi] at this
      simpa using this
    refine ⟨hlt, ?_, ?_⟩
    · intro j hj
      have hle := argminQ_le (known.map (fun k => sqDist k q)) j
        (by simpa using hj)
      rw [← hi] at hle
      rw [getD_map_of_lt _ _ _ hlt [], getD_map_of_lt _ _ _ hj []] at hle
      exact (faceDistance_le_faceDistance_iff _ _ _ _).mpr hle
    · intro j hj
      have hjlt : j < known.length := by omega
      have hfirst := argminQ_first (known.map (fun k => sqDist k q)) j
        (by rw [← hi]; exact hj)
      rw [← hi] at hfirst
      rw [getD_map_of_lt _ _ _ hlt [], getD_map_of_lt _ _ _ hjlt []]
        at hfirst
      exact (faceDistance_lt_faceDistance_iff _ _ _ _).mpr hfirst
  · push_neg at hex
    have : matchBestIndex tol known q = none := by
      apply matchBestIndex_none_of
      intro j hj
      have := hex j hj
      exact Bool.not_eq_true _ ▸ this
    rw [this] at h
    exact absurd h (Option.noConfusion)

/-- Witness for the amended C4 at a concrete input: the second person is
the unique minimum, so index 1 is selected. -/
theorem matcher_selects_first_min_witness :
    matchBestIndex 1 [[5], [0]] [0] = some 1 ∧
    (1 < ([[5], [0]] : List Encoding).length ∧
     (∀ j, j < ([[5], [0]] : List Encoding).length →
       faceDistance (([[5], [0]] : List Encoding).getD 1 []) [0] ≤
         faceDistance (([[5], [0]] : List Encoding).getD j []) [0]) ∧
     (∀ j, j < 1 →
       faceDistance (([[5], [0]] : List Encoding).getD 1 []) [0] <
         faceDistance (([[5], [0]] : List Encoding).getD j []) [0])) :=
  ⟨by norm_num [matchBestIndex, compareFace, sqDist, argminQ],
   matcher_selects_first_min 1 [[5], [0]] [0] 1
     (by norm_num [matchBestIndex, compareFace, sqDist, argminQ])⟩

/-- Default FaceMatch row used as the `getD` fallback in statements. -/
def anyMatch : FaceMatch :=
  { id := 0, photo_id := 0, person_id := 0, bounding_box := (0, 0, 0, 0),
    sq_distance := none, face_encoding := [] }

theorem getD_append_singleton {α : Type} (l : List α) (a d : α) :
    (l ++ [a]).getD l.length d = a := by
  induction l with
  | nil => simp
  | cons x xs ih => simp [ih]

/-- Claim C2, amended: for a face whose minimum distance `d` to the known
reference encodings is within tolerance, the matched-branch of the
per-face loop appends a FaceMatch row whose stored confidence is `1 - d`
(with no clamping at zero), and increments the matched person
`photo_count` by exactly 1, leaving every other row unchanged. -/
theorem matched_face_records (tol : ℚ) (photo_id : ℕ) (f : Face)
    (ps : List Person) (ms : List FaceMatch) (n : ℕ)
    (hnodup : (ps.map Person.id).Nodup)
    (hcand : ∃ k ∈ ps.map Person.face_encoding,
      faceDistance k f.encoding ≤ (tol : ℝ)) :
    ∃ i, i < ps.length ∧
      (∀ p ∈ ps,
        faceDistance (ps.getD i anyPerson).face_encoding f.encoding ≤
          faceDistance p.face_encoding f.encoding) ∧
      process_face tol photo_id f
          ⟨ps, ps.map Person.face_encoding, ps.map Person.id, ms, n⟩
        = ⟨ps.set i { ps.getD i anyPerson with
              photo_count := (ps.getD i anyPerson).photo_count + 1 },
           ps.map Person.face_encoding, ps.map Person.id,
           ms ++ [{ id := f.fresh_match_id, photo_id := photo_id,
                    person_id := (ps.getD i anyPerson).id,
                    bounding_box := f.location,
                    sq_distance := some
                      (sqDist (ps.getD i anyPerson).face_encoding f.encoding),
                    face_encoding := f.encoding }],
           n + 1⟩ ∧
      ((process_face tol photo_id f
          ⟨ps, ps.map Person.face_encoding, ps.map Person.id, ms,
           n⟩).new_matches.getD ms.length anyMatch).confidence
        = 1 - faceDistance (ps.getD i anyPerson).face_encoding f.encoding
    := by
  obtain ⟨k, hk, hdist⟩ := hcand
  obtain ⟨j, hj, hget⟩ := mem_getD_of_mem hk []
  have hjlen : j < ps.length := by simpa using hj
  have hflag : compareFace tol ((ps.map Person.face_encoding).getD j [])
      f.encoding = true := by
    rw [hget]
    exact (compareFace_true_iff tol k f.encoding).mpr hdist
  have hmatch := matchBestIndex_some_of tol (ps.map Person.face_encoding)
    f.encoding ⟨j, hj, hflag⟩
  set best := argminQ ((ps.map Person.face_encoding).map
    (fun k => sqDist k f.encoding)) with hbest
  have hne : (ps.map Person.face_encoding).map
      (fun k => sqDist k f.encoding) ≠ [] := by
    intro hnil
    rw [List.map_eq_nil_iff, List.map_eq_nil_iff] at hnil
    subst hnil
    simp at hjlen
  have hblt : best < ps.length := by
    have h := argminQ_lt_length _ hne
    rw [← hbest] at h
    simpa using h
  have hbltm : best < (ps.map Person.face_encoding).length := by
    simpa using hblt
  have hpid : (ps.map Person.id).getD best 0 = (ps.getD best anyPerson).id :=
    getD_map_of_lt Person.id ps best hblt anyPerson 0
  have henc : (ps.map Person.face_encoding).getD best []
      = (ps.getD best anyPerson).face_encoding :=
    getD_map_of_lt Person.face_encoding ps best hblt anyPerson []
  have hstep : process_face tol photo_id f
      ⟨ps, ps.map Person.face_encoding, ps.map Person.id, ms, n⟩
    = ⟨ps.set best { ps.getD best anyPerson with
          photo_count := (ps.getD best anyPerson).photo_count + 1 },
       ps.map Person.face_encoding, ps.map Person.id,
       ms ++ [{ id := f.fresh_match_id, photo_id := photo_id,
                person_id := (ps.getD best anyPerson).id,
                bounding_box := f.location,
                sq_distance := some
                  (sqDist (ps.getD best anyPerson).face_encoding f.encoding),
                face_encoding := f.encoding }],
       n + 1⟩ := by
    simp only [process_face, hmatch]
    rw [hpid, henc, updateFirst_eq_set ps best hblt hnodup]
  refine ⟨best, hblt, ?_, hstep, ?_⟩
  · intro p hp
    obtain ⟨jp, hjp, hgetp⟩ := mem_getD_of_mem hp anyPerson
    have hjpm : jp < (ps.map Person.face_encoding).length := by simpa using hjp
    have hle := argminQ_le ((ps.map Person.face_encoding).map
      (fun k => sqDist k f.encoding)) jp (by simpa using hjp)
    rw [← hbest] at hle
    rw [getD_map_of_lt _ _ _ hbltm [], getD_map_of_lt _ _ _ hjpm []] at hle
    rw [henc, getD_map_of_lt Person.face_encoding ps jp hjp anyPerson []]
      at hle
    rw [← hgetp]
    exact (faceDistance_le_faceDistance_iff _ _ _ _).mpr hle
  · rw [hstep]
    simp only
    rw [getD_append_singleton]
    simp [FaceMatch.confidence, faceDistance]

/-- Claim C2, counterexample to the claim as stated: with one known
person at squared distance 9/4 (distance 3/2) and tolerance 2, the face
is within tolerance, yet the recorded confidence is `1 - 3/2 = -1/2`,
not `max 0 (1 - 3/2) = 0`: the source stores `1 - d` without clamping. -/
theorem matched_confidence_clamp_counterexample :
    faceDistance [0] [3 / 2] ≤ ((2 : ℚ) : ℝ) ∧
    ((process_face 2 0 ⟨[3 / 2], (0, 0, 0, 0), 8, 9, 10⟩
        (init_work [⟨7, ("a"), [0], 20, 3⟩])).new_matches.getD 0
        anyMatch).confidence = -(1 / 2) ∧
    max 0 (1 - faceDistance [0] [3 / 2]) = 0 := by
  have hsq : sqDist [(0 : ℚ)] [3 / 2] = 9 / 4 := by norm_num [sqDist]
  have h32 : faceDistance [0] [3 / 2] = 3 / 2 := by
    unfold faceDistance
    rw [hsq]
    rw [show (((9 / 4 : ℚ)) : ℝ) = (3 / 2 : ℝ) ^ 2 by norm_num]
    rw [Real.sqrt_sq (by norm_num)]
  refine ⟨by rw [h32]; norm_num, ?_, by rw [h32]; norm_num⟩
  have hrow : (process_face 2 0 ⟨[3 / 2], (0, 0, 0, 0), 8, 9, 10⟩
      (init_work [⟨7, ("a"), [0], 20, 3⟩])).new_matches
      = [{ id := 9, photo_id := 0, person_id := 7,
           bounding_box := (0, 0, 0, 0), sq_distance := some (9 / 4),
           face_encoding := [3 / 2] }] := by
    norm_num [process_face, matchBestIndex, compareFace, sqDist, argminQ,
      init_work, updateFirst]
  rw [hrow]
  simp only [List.getD_cons_zero, FaceMatch.confidence]
  rw [show (((9 / 4 : ℚ)) : ℝ) = (3 / 2 : ℝ) ^ 2 by norm_num]
  rw [Real.sqrt_sq (by norm_num)]
  norm_num

/-- Claim C3: for a face farther than the tolerance from every known
reference encoding (vacuously, also when no person exists), the per-face
loop creates exactly one new Person whose reference encoding is the
own encoding of the face and whose `photo_count` is 1, plus a FaceMatch
row whose stored confidence is 1.0. -/
theorem new_person_records (tol : ℚ) (photo_id : ℕ) (f : Face)
    (ps : List Person) (ms : List FaceMatch) (n : ℕ)
    (hfar : ∀ k ∈ ps.map Person.face_encoding,
      ¬ faceDistance k f.encoding ≤ (tol : ℝ)) :
    process_face tol photo_id f
        ⟨ps, ps.map Person.face_encoding, ps.map Person.id, ms, n⟩
      = ⟨ps ++ [{ id := f.fresh_person_id,
                  name := "人物 " ++ toString (ps.length + 1),
                  face_encoding := f.encoding,
                  thumbnail_s3_key := f.fresh_thumb_key,
                  photo_count := 1 }],
         ps.map Person.face_encoding ++ [f.encoding],
         ps.map Person.id ++ [f.fresh_person_id],
         ms ++ [{ id := f.fresh_match_id, photo_id := photo_id,
                  person_id := f.fresh_person_id,
                  bounding_box := f.location, sq_distance := none,
                  face_encoding := f.encoding }],
         n + 1⟩ ∧
    ((process_face tol photo_id f
        ⟨ps, ps.map Person.face_encoding, ps.map Person.id, ms,
         n⟩).new_matches.getD ms.length anyMatch).confidence = 1 := by
  have hmatch : matchBestIndex tol (ps.map Person.face_encoding) f.encoding
      = none := by
    apply matchBestIndex_none_of
    intro j hj
    have hjlen : j < ps.length := by simpa using hj
    have hmem : (ps.map Person.face_encoding).getD j [] ∈
        ps.map Person.face_encoding := getD_mem_of_lt hj []
    have := hfar _ hmem
    rw [← compareFace_true_iff] at this
    exact Bool.not_eq_true _ ▸ this
  have hstep : process_face tol photo_id f
      ⟨ps, ps.map Person.face_encoding, ps.map Person.id, ms, n⟩
    = ⟨ps ++ [{ id := f.fresh_person_id,
                name := "人物 " ++ toString (ps.length + 1),
                face_encoding := f.encoding,
                thumbnail_s3_key := f.fresh_thumb_key,
                photo_count := 1 }],
       ps.map Person.face_encoding ++ [f.encoding],
       ps.map Person.id ++ [f.fresh_person_id],
       ms ++ [{ id := f.fresh_match_id, photo_id := photo_id,
                person_id := f.fresh_person_id,
                bounding_box := f.location, sq_distance := none,
                face_encoding := f.encoding }],
       n + 1⟩ := by
    simp only [process_face, hmatch]
  refine ⟨hstep, ?_⟩
  rw [hstep]
  simp only
  rw [getD_append_singleton]
  simp [FaceMatch.confidence]

/-- Concrete persons table for the amended-C2 witness. -/
def c2_persons : List Person :=
  [{ id := 7, name := "a", face_encoding := [0], thumbnail_s3_key := 20,
     photo_count := 3 }]

/-- Concrete detected face for the amended-C2 witness: distance 3/5 to
the single known person, within tolerance 1. -/
def c2_face : Face :=
  { encoding := [3 / 5], location := (0, 0, 0, 0), fresh_person_id := 8,
    fresh_match_id := 9, fresh_thumb_key := 10 }

/-- Witness for the amended C2 at a concrete input. -/
theorem matched_face_records_witness :
    ((c2_persons.map Person.id).Nodup ∧
      ∃ k ∈ c2_persons.map Person.face_encoding,
        faceDistance k c2_face.encoding ≤ ((1 : ℚ) : ℝ)) ∧
    (∃ i, i < c2_persons.length ∧
      (∀ p ∈ c2_persons,
        faceDistance (c2_persons.getD i anyPerson).face_encoding
          c2_face.encoding ≤ faceDistance p.face_encoding c2_face.encoding) ∧
      process_face 1 0 c2_face
          ⟨c2_persons, c2_persons.map Person.face_encoding,
           c2_persons.map Person.id, [], 0⟩
        = ⟨c2_persons.set i { c2_persons.getD i anyPerson with
              photo_count := (c2_persons.getD i anyPerson).photo_count + 1 },
           c2_persons.map Person.face_encoding, c2_persons.map Person.id,
           [{ id := c2_face.fresh_match_id, photo_id := 0,
              person_id := (c2_persons.getD i anyPerson).id,
              bounding_box := c2_face.location,
              sq_distance := some (sqDist
                (c2_persons.getD i anyPerson).face_encoding c2_face.encoding),
              face_encoding := c2_face.encoding }],
           1⟩ ∧
      ((process_face 1 0 c2_face
          ⟨c2_persons, c2_persons.map Person.face_encoding,
           c2_persons.map Person.id, [], 0⟩).new_matches.getD 0
          anyMatch).confidence
        = 1 - faceDistance (c2_persons.getD i anyPerson).face_encoding
            c2_face.encoding) := by
  have h1 : (c2_persons.map Person.id).Nodup := by simp [c2_persons]
  have h2 : ∃ k ∈ c2_persons.map Person.face_encoding,
      faceDistance k c2_face.encoding ≤ ((1 : ℚ) : ℝ) := by
    refine ⟨[0], by simp [c2_persons], ?_⟩
    rw [faceDistance_le_iff]
    norm_num [sqDist, c2_face]
  exact ⟨⟨h1, h2⟩, matched_face_records 1 0 c2_face c2_persons [] 0 h1 h2⟩

/-- Witness for C3 at a concrete input: empty persons table, so the face
is vacuously far from every known encoding. -/
theorem new_person_records_witness :
    (∀ k ∈ ([] : List Person).map Person.face_encoding,
      ¬ faceDistance k [1] ≤ ((3 / 5 : ℚ) : ℝ)) ∧
    (process_face (3 / 5) 0 ⟨[1], (0, 0, 0, 0), 4, 5, 6⟩
        ⟨[], ([] : List Person).map Person.face_encoding,
         ([] : List Person).map Person.id, [], 0⟩
      = ⟨[{ id := 4,
            name := "人物 " ++ toString (([] : List Person).length + 1),
            face_encoding := [1], thumbnail_s3_key := 6, photo_count := 1 }],
         ([] : List Person).map Person.face_encoding ++ [[1]],
         ([] : List Person).map Person.id ++ [4],
         [{ id := 5, photo_id := 0, person_id := 4,
            bounding_box := (0, 0, 0, 0), sq_distance := none,
            face_encoding := [1] }],
         1⟩ ∧
     ((process_face (3 / 5) 0 ⟨[1], (0, 0, 0, 0), 4, 5, 6⟩
        ⟨[], ([] : List Person).map Person.face_encoding,
         ([] : List Person).map Person.id, [], 0⟩).new_matches.getD 0
        anyMatch).confidence = 1) := by
  have h1 : ∀ k ∈ ([] : List Person).map Person.face_encoding,
      ¬ faceDistance k [1] ≤ ((3 / 5 : ℚ) : ℝ) := by simp
  exact ⟨h1, new_person_records (3 / 5) 0 ⟨[1], (0, 0, 0, 0), 4, 5, 6⟩ [] [] 0
    h1⟩

/-! Loop lemmas. -/

/-- Without an injected failure the per-face loop is a left fold of
`process_face`, independently of the index counter. -/
theorem run_faces_none (tol : ℚ) (pid : ℕ) :
    ∀ (fs : List Face) (i : ℕ) (st : WorkSt),
      run_faces tol pid fs i none st
        = (fs.foldl (fun s f => process_face tol pid f s) st, none)
  | [], _, _ => rfl
  | f :: rest, i, st => by
    simp only [run_faces, List.foldl_cons]
    exact run_faces_none tol pid rest (i + 1) (process_face tol pid f st)

/-- A failure injected at face `i + k` (with `k` more faces to go) stops
the loop with the state reached after the first `k` remaining faces. -/
theorem run_faces_fail (tol : ℚ) (pid : ℕ) (msg : String) :
    ∀ (k : ℕ) (fs : List Face) (i : ℕ) (st : WorkSt), k < fs.length →
      run_faces tol pid fs i (some (i + k, msg)) st
        = ((run_faces tol pid (fs.take k) i none st).1, some msg)
  | 0, [], _, _, h => by simp at h
  | 0, f :: rest, i, st, _ => by
    simp [run_faces]
  | k + 1, [], _, _, h => by simp at h
  | k + 1, f :: rest, i, st, h => by
    have hk : k < rest.length := by simpa using h
    have hne : ¬ (i = i + (k + 1)) := by omega
    simp only [run_faces, List.take_succ_cons]
    rw [if_neg hne]
    have hsh : i + (k + 1) = (i + 1) + k := by omega
    rw [hsh]
    exact run_faces_fail tol pid msg k rest (i + 1)
      (process_face tol pid f st) hk

/-- One loop iteration only ever appends to the in-memory working set of
known person ids. -/
theorem process_face_ids_grow (tol : ℚ) (pid : ℕ) (f : Face)
    (st : WorkSt) :
    st.known_person_ids <+: (process_face tol pid f st).known_person_ids
    := by
  unfold process_face
  cases h : matchBestIndex tol st.known_encodings f.encoding with
  | none => exact ⟨[f.fresh_person_id], rfl⟩
  | some i => exact List.prefix_rfl

/-- When the matcher declines, the id of the new person is appended to the
working set. -/
theorem process_face_none_ids (tol : ℚ) (pid : ℕ) (f : Face) (st : WorkSt)
    (h : matchBestIndex tol st.known_encodings f.encoding = none) :
    (process_face tol pid f st).known_person_ids
      = st.known_person_ids ++ [f.fresh_person_id] := by
  unfold process_face
  rw [h]

theorem foldl_ids_grow (tol : ℚ) (pid : ℕ) :
    ∀ (fs : List Face) (st : WorkSt),
      st.known_person_ids <+:
        (fs.foldl (fun s f => process_face tol pid f s) st).known_person_ids
  | [], _ => List.prefix_rfl
  | f :: rest, st => by
    simp only [List.foldl_cons]
    exact (process_face_ids_grow tol pid f st).trans
      (foldl_ids_grow tol pid rest (process_face tol pid f st))

/-- Assigning to the single row `find?` returns mutates exactly that row,
provided the mutation preserves the lookup predicate. -/
theorem find?_updateFirst {α : Type} (p : α → Bool) (f : α → α) :
    ∀ (l : List α) (x : α), l.find? p = some x → p (f x) = true →
      (updateFirst p f l).find? p = some (f x)
  | [], x, hx, _ => by simp at hx
  | y :: ys, x, hx, hf => by
    by_cases hy : p y
    · rw [List.find?_cons_of_pos _ hy] at hx
      have hxy : x = y := (Option.some.inj hx).symm
      subst hxy
      rw [updateFirst, if_pos hy]
      exact List.find?_cons_of_pos _ hf
    · rw [List.find?_cons_of_neg _ hy] at hx
      rw [updateFirst, if_neg (by simpa using hy)]
      rw [List.find?_cons_of_neg _ hy]
      exact find?_updateFirst p f ys x hx hf

/-- Claim C5: faces are processed in detection order against a working
set seeded once (`init_work ps` is built from the single persons snapshot
`process_single_photo` takes at the start of the photo, by definition of
`process_single_photo`); the working set after processing an earlier
prefix of the faces is a prefix of the working set any later face sees,
and a person minted for face `i` is in the working set seen by every
later prefix `j > i`. -/
theorem working_set_accumulates (tol : ℚ) (pid : ℕ) (fs : List Face)
    (ps : List Person) (i j : ℕ) (hij : i < j) (hj : j ≤ fs.length) :
    ((run_faces tol pid (fs.take (i + 1)) 0 none
        (init_work ps)).1).known_person_ids
      <+: ((run_faces tol pid (fs.take j) 0 none
        (init_work ps)).1).known_person_ids ∧
    (matchBestIndex tol
        ((run_faces tol pid (fs.take i) 0 none
          (init_work ps)).1).known_encodings
        (fs.getD i anyFace).encoding = none →
      (fs.getD i anyFace).fresh_person_id ∈
        ((run_faces tol pid (fs.take j) 0 none
          (init_work ps)).1).known_person_ids) := by
  have hi : i < fs.length := lt_of_lt_of_le hij hj
  rw [run_faces_none, run_faces_none, run_faces_none]
  simp only
  have hdecomp : fs.take j
      = fs.take (i + 1) ++ ((fs.drop (i + 1)).take (j - (i + 1))) := by
    rw [← List.take_add]
    congr 1
    omega
  have hpre :
      ((fs.take (i + 1)).foldl (fun s f => process_face tol pid f s)
        (init_work ps)).known_person_ids <+:
      ((fs.take j).foldl (fun s f => process_face tol pid f s)
        (init_work ps)).known_person_ids := by
    rw [hdecomp, List.foldl_append]
    exact foldl_ids_grow tol pid _ _
  refine ⟨hpre, ?_⟩
  intro hmatch
  have hstep : fs.take (i + 1) = fs.take i ++ [fs.getD i anyFace] := by
    rw [List.take_succ]
    congr 1
    rw [List.getElem?_eq_getElem hi, List.getD_eq_getElem _ _ hi]
    rfl
  have hmem1 : (fs.getD i anyFace).fresh_person_id ∈
      ((fs.take (i + 1)).foldl (fun s f => process_face tol pid f s)
        (init_work ps)).known_person_ids := by
    rw [hstep, List.foldl_append]
    simp only [List.foldl_cons, List.foldl_nil]
    rw [process_face_none_ids tol pid _ _ hmatch]
    simp
  exact hpre.subset hmem1

/-- Two concrete detected faces for the C5 witness. -/
def c5_faces : List Face :=
  [{ encoding := [1], location := (0, 0, 0, 0), fresh_person_id := 4,
     fresh_match_id := 5, fresh_thumb_key := 6 },
   { encoding := [9], location := (0, 0, 0, 0), fresh_person_id := 7,
     fresh_match_id := 8, fresh_thumb_key := 9 }]

/-- Witness for C5 at a concrete input: two faces, empty initial
snapshot, `i = 0 < j = 2`. -/
theorem working_set_accumulates_witness :
    ((0 : ℕ) < 2 ∧ 2 ≤ c5_faces.length) ∧
    (((run_faces (1 / 2) 0 (c5_faces.take (0 + 1)) 0 none
        (init_work [])).1).known_person_ids
      <+: ((run_faces (1 / 2) 0 (c5_faces.take 2) 0 none
        (init_work [])).1).known_person_ids ∧
    (matchBestIndex (1 / 2)
        ((run_faces (1 / 2) 0 (c5_faces.take 0) 0 none
          (init_work [])).1).known_encodings
        (c5_faces.getD 0 anyFace).encoding = none →
      (c5_faces.getD 0 anyFace).fresh_person_id ∈
        ((run_faces (1 / 2) 0 (c5_faces.take 2) 0 none
          (init_work [])).1).known_person_ids)) := by
  have h1 : (0 : ℕ) < 2 := by norm_num
  have h2 : 2 ≤ c5_faces.length := by simp [c5_faces]
  exact ⟨⟨h1, h2⟩, working_set_accumulates (1 / 2) 0 c5_faces [] 0 2 h1 h2⟩

/-! State-shape lemmas: the queue writes never touch the other tables. -/

theorem set_status_photos (pid : ℕ) (st : QStatus) (s : DBState) :
    (set_status pid st s).photos = s.photos := rfl

theorem set_status_persons (pid : ℕ) (st : QStatus) (s : DBState) :
    (set_status pid st s).persons = s.persons := rfl

theorem set_status_face_matches (pid : ℕ) (st : QStatus) (s : DBState) :
    (set_status pid st s).face_matches = s.face_matches := rfl

theorem set_failed_photos (pid : ℕ) (msg : String) (s : DBState) :
    (set_failed pid msg s).photos = s.photos := rfl

/-- The zero-face run of `process_single_photo`, as one state equation. -/
theorem process_zero_faces_eq (tol : ℚ) (pid : ℕ) (s : DBState)
    (e : QueueEntry) (p : Photo)
    (he : s.queue.find? (fun q => q.photo_id == pid) = some e)
    (hp : s.photos.find? (fun q => q.id == pid) = some p) :
    process_single_photo tol (ExtOutcome.detected [] none) pid s
      = (set_status pid QStatus.completed
          { set_status pid QStatus.processing s with
              photos := updateFirst (fun q => q.id == pid)
                (fun q => { q with processed := true, face_count := 0 })
                s.photos },
         PResult.ok 0) := by
  unfold process_single_photo
  simp only [he, set_status_photos, hp, List.length_nil]
  rfl

/-- Claim C6: a photo whose detector returns zero faces succeeds: the
result is `ok 0`, the Photo row ends with `processed = true` and
`face_count = 0`, no FaceMatch row and no Person row is created, and the
QueueEntry ends `completed`. -/
theorem zero_faces_success (tol : ℚ) (pid : ℕ) (s : DBState)
    (e : QueueEntry) (p : Photo)
    (he : s.queue.find? (fun q => q.photo_id == pid) = some e)
    (hp : s.photos.find? (fun q => q.id == pid) = some p) :
    (process_single_photo tol (ExtOutcome.detected [] none) pid s).2
      = PResult.ok 0 ∧
    (process_single_photo tol (ExtOutcome.detected [] none) pid
        s).1.photos.find? (fun q => q.id == pid)
      = some { p with processed := true, face_count := 0 } ∧
    (process_single_photo tol (ExtOutcome.detected [] none) pid
        s).1.face_matches = s.face_matches ∧
    (process_single_photo tol (ExtOutcome.detected [] none) pid
        s).1.persons = s.persons ∧
    (process_single_photo tol (ExtOutcome.detected [] none) pid
        s).1.queue.find? (fun q => q.photo_id == pid)
      = some { e with status := QStatus.completed } := by
  rw [process_zero_faces_eq tol pid s e p he hp]
  have hpe := List.find?_some hp
  have hqe := List.find?_some he
  refine ⟨rfl, ?_, rfl, rfl, ?_⟩
  · simp only [set_status]
    exact find?_updateFirst _ _ s.photos p hp hpe
  · simp only [set_status]
    exact find?_updateFirst (fun q => q.photo_id == pid)
      (fun q => { q with status := QStatus.completed }) _
      { e with status := QStatus.processing }
      (find?_updateFirst (fun q => q.photo_id == pid)
        (fun q => { q with status := QStatus.processing }) s.queue e he hqe)
      hqe

/-- Concrete state for the C6 witness: one unprocessed photo, one pending
queue entry, no persons. -/
def c6_state : DBState :=
  { photos := [{ id := 0, s3_key := 3, processed := false, face_count := 5 }]
    persons := []
    face_matches := []
    queue := [{ id := 1, photo_id := 0, status := QStatus.pending,
                error_message := none }] }

/-- Witness for C6 at a concrete input. -/
theorem zero_faces_success_witness :
    (c6_state.queue.find? (fun q => q.photo_id == 0)
        = some { id := 1, photo_id := 0, status := QStatus.pending,
                 error_message := none } ∧
     c6_state.photos.find? (fun q => q.id == 0)
        = some { id := 0, s3_key := 3, processed := false,
                 face_count := 5 }) ∧
    ((process_single_photo 1 (ExtOutcome.detected [] none) 0 c6_state).2
      = PResult.ok 0 ∧
    (process_single_photo 1 (ExtOutcome.detected [] none) 0
        c6_state).1.photos.find? (fun q => q.id == 0)
      = some { ({ id := 0, s3_key := 3, processed := false,
                  face_count := 5 } : Photo) with
               processed := true, face_count := 0 } ∧
    (process_single_photo 1 (ExtOutcome.detected [] none) 0
        c6_state).1.face_matches = c6_state.face_matches ∧
    (process_single_photo 1 (ExtOutcome.detected [] none) 0
        c6_state).1.persons = c6_state.persons ∧
    (process_single_photo 1 (ExtOutcome.detected [] none) 0
        c6_state).1.queue.find? (fun q => q.photo_id == 0)
      = some { ({ id := 1, photo_id := 0, status := QStatus.pending,
                  error_message := none } : QueueEntry) with
               status := QStatus.completed }) := by
  have h1 : c6_state.queue.find? (fun q => q.photo_id == 0)
      = some { id := 1, photo_id := 0, status := QStatus.pending,
               error_message := none } := by decide
  have h2 : c6_state.photos.find? (fun q => q.id == 0)
      = some { id := 0, s3_key := 3, processed := false,
               face_count := 5 } := by decide
  exact ⟨⟨h1, h2⟩, zero_faces_success 1 0 c6_state _ _ h1 h2⟩

/-- Claim C7, counterexample: `process_single_photo` does not guard the
lease write on the `pending` state — invoked on a photo whose only queue
entry is already `completed` (and whose Photo row is absent, so the run
fails), it moves that entry from `completed` through `processing` to
`failed`: `completed` is not terminal under the operations the code
actually exposes. -/
theorem terminal_status_counterexample :
    (process_single_photo 1 ExtOutcome.download_fail 0
        ⟨[], [], [], [⟨1, 0, QStatus.completed, none⟩]⟩).1.queue
      = [⟨1, 0, QStatus.failed, some ("Photo not found")⟩] ∧
    (process_single_photo 1 ExtOutcome.download_fail 0
        ⟨[], [], [], [⟨1, 0, QStatus.completed, none⟩]⟩).2
      = PResult.err ("Photo not found") :=
  ⟨by decide, by decide⟩

theorem pending_selection_all_pending (s : DBState) :
    ∀ e2 ∈ pending_selection s, e2.status = QStatus.pending := by
  intro e2 he2
  have h1 : e2 ∈ s.queue.filter (fun q => q.status == QStatus.pending) :=
    (List.take_sublist _ _).mem he2
  have h2 := List.of_mem_filter h1
  simpa using h2

/-- Claim C7, amended: the only pending-guard in the code is the batch
selection of `start_processing`, which considers only `pending` entries;
the lease write of `process_single_photo` itself moves the referenced entry to
`processing` whatever its current status, so `completed` and `failed` are
terminal only under the discipline that workers are invoked solely on
freshly selected pending entries. -/
theorem lease_write_unguarded (s : DBState) (pid : ℕ) (e : QueueEntry)
    (he : s.queue.find? (fun q => q.photo_id == pid) = some e) :
    (∀ e2 ∈ pending_selection s, e2.status = QStatus.pending) ∧
    (set_status pid QStatus.processing s).queue.find?
        (fun q => q.photo_id == pid)
      = some { e with status := QStatus.processing } := by
  refine ⟨pending_selection_all_pending s, ?_⟩
  have hqe := List.find?_some he
  simp only [set_status]
  exact find?_updateFirst (fun q => q.photo_id == pid)
    (fun q => { q with status := QStatus.processing }) s.queue e he hqe

/-- Witness for the amended C7: the lease write moves an already
`completed` entry to `processing`. -/
theorem lease_write_unguarded_witness :
    (([⟨1, 5, QStatus.completed, none⟩] : List QueueEntry).find?
        (fun q => q.photo_id == 5) = some ⟨1, 5, QStatus.completed, none⟩) ∧
    ((∀ e2 ∈ pending_selection ⟨[], [], [], [⟨1, 5, QStatus.completed,
        none⟩]⟩, e2.status = QStatus.pending) ∧
     (set_status 5 QStatus.processing
        ⟨[], [], [], [⟨1, 5, QStatus.completed, none⟩]⟩).queue.find?
          (fun q => q.photo_id == 5)
        = some { (⟨1, 5, QStatus.completed, none⟩ : QueueEntry) with
                 status := QStatus.processing }) := by
  have h1 : ([⟨1, 5, QStatus.completed, none⟩] : List QueueEntry).find?
      (fun q => q.photo_id == 5) = some ⟨1, 5, QStatus.completed, none⟩ := by
    decide
  exact ⟨h1, lease_write_unguarded ⟨[], [], [], [⟨1, 5, QStatus.completed,
    none⟩]⟩ 5 ⟨1, 5, QStatus.completed, none⟩ h1⟩

/-- Claim C8, counterexample: the lease query of `start_processing` has
no ORDER BY, so the program does not guarantee insertion order.  With a
queue holding two pending entries inserted as id 1 then id 2, the
reversed list is an admissible query result (`lease_result`), yet it is
not an order-preserving sublist of the queue — the oldest entry does not
come first. -/
theorem lease_order_counterexample :
    lease_result
      ⟨[], [], [], [⟨1, 10, QStatus.pending, none⟩,
                    ⟨2, 20, QStatus.pending, none⟩]⟩
      [⟨2, 20, QStatus.pending, none⟩, ⟨1, 10, QStatus.pending, none⟩] ∧
    ¬ List.Sublist
        [⟨2, 20, QStatus.pending, none⟩, ⟨1, 10, QStatus.pending, none⟩]
        (⟨[], [], [], [⟨1, 10, QStatus.pending, none⟩,
                       ⟨2, 20, QStatus.pending, none⟩]⟩ :
          DBState).queue := by
  constructor
  · refine ⟨[⟨2, 20, QStatus.pending, none⟩,
             ⟨1, 10, QStatus.pending, none⟩], ?_, by decide⟩
    have hf : (⟨[], [], [], [⟨1, 10, QStatus.pending, none⟩,
          ⟨2, 20, QStatus.pending, none⟩]⟩ : DBState).queue.filter
          (fun q => q.status == QStatus.pending)
        = [⟨1, 10, QStatus.pending, none⟩,
           ⟨2, 20, QStatus.pending, none⟩] := by decide
    rw [hf]
    exact List.Perm.swap _ _ _
  · intro h
    have hlen := h.eq_of_length (by decide)
    exact absurd hlen (by decide)

/-- Claim C8, amended: a single lease-request call claims at most 100
QueueEntries, all of which have status pending; but the query carries no
ORDER BY, so the result may come back in any backend-chosen order
(quantified here), and insertion order is not guaranteed. -/
theorem lease_result_bounded_pending (s : DBState) (r : List QueueEntry)
    (h : lease_result s r) :
    r.length ≤ 100 ∧ ∀ e ∈ r, e.status = QStatus.pending := by
  obtain ⟨perm, hperm, hr⟩ := h
  subst hr
  constructor
  · rw [List.length_take]
    exact min_le_left _ _
  · intro e he
    have h1 : e ∈ perm := (List.take_sublist _ _).mem he
    have h2 : e ∈ s.queue.filter (fun q => q.status == QStatus.pending) :=
      hperm.mem_iff.mp h1
    have h3 := List.of_mem_filter h2
    simpa using h3

/-- Witness for the amended C8 at a concrete input: one pending entry,
returned by the backend as-is. -/
theorem lease_result_bounded_pending_witness :
    lease_result ⟨[], [], [], [⟨1, 10, QStatus.pending, none⟩]⟩
      [⟨1, 10, QStatus.pending, none⟩] ∧
    (([⟨1, 10, QStatus.pending, none⟩] : List QueueEntry).length ≤ 100 ∧
     ∀ e ∈ ([⟨1, 10, QStatus.pending, none⟩] : List QueueEntry),
       e.status = QStatus.pending) := by
  have h : lease_result ⟨[], [], [], [⟨1, 10, QStatus.pending, none⟩]⟩
      [⟨1, 10, QStatus.pending, none⟩] := by
    refine ⟨[⟨1, 10, QStatus.pending, none⟩], ?_, by decide⟩
    have hf : (⟨[], [], [], [⟨1, 10, QStatus.pending, none⟩]⟩ :
          DBState).queue.filter (fun q => q.status == QStatus.pending)
        = [⟨1, 10, QStatus.pending, none⟩] := by decide
    rw [hf]
  exact ⟨h, lease_result_bounded_pending _ _ h⟩

/-- Claim C9: any error raised before the final Photo update — missing
Photo row, failed S3 download, detector failure — commits the entry as
`failed` carrying the cause as its (non-empty) error message, returns a
failure result, and leaves the photos table (hence every `processed`
flag) untouched. -/
theorem early_error_fails (tol : ℚ) (pid : ℕ) (s : DBState)
    (e : QueueEntry) (ext : ExtOutcome) (msg : String)
    (he : s.queue.find? (fun q => q.photo_id == pid) = some e)
    (hkind :
      (s.photos.find? (fun q => q.id == pid) = none ∧
        msg = "Photo not found") ∨
      ((∃ p, s.photos.find? (fun q => q.id == pid) = some p) ∧
        ext = ExtOutcome.download_fail ∧
        msg = "Failed to download image from S3") ∨
      ((∃ p, s.photos.find? (fun q => q.id == pid) = some p) ∧
        ext = ExtOutcome.detector_fail msg))
    (hmsg : msg ≠ "") :
    process_single_photo tol ext pid s
      = (set_failed pid msg (set_status pid QStatus.processing s),
         PResult.err msg) ∧
    msg ≠ "" ∧
    (process_single_photo tol ext pid s).1.photos = s.photos ∧
    (process_single_photo tol ext pid s).1.persons = s.persons ∧
    (process_single_photo tol ext pid s).1.queue.find?
        (fun q => q.photo_id == pid)
      = some { e with status := QStatus.failed,
                      error_message := some msg } := by
  have hqe := List.find?_some he
  have hmain : process_single_photo tol ext pid s
      = (set_failed pid msg (set_status pid QStatus.processing s),
         PResult.err msg) := by
    unfold process_single_photo
    rcases hkind with ⟨hnone, hm⟩ | ⟨⟨p, hp⟩, hext, hm⟩ | ⟨⟨p, hp⟩, hext⟩
    · subst hm
      simp only [he, set_status_photos, hnone]
    · subst hm
      subst hext
      simp only [he, set_status_photos, hp]
    · subst hext
      simp only [he, set_status_photos, hp]
  refine ⟨hmain, hmsg, ?_, ?_, ?_⟩
  · rw [hmain]
    rfl
  · rw [hmain]
    rfl
  · rw [hmain]
    simp only [set_failed, set_status]
    exact find?_updateFirst (fun q => q.photo_id == pid)
      (fun q => { q with status := QStatus.failed,
                         error_message := some msg }) _
      { e with status := QStatus.processing }
      (find?_updateFirst (fun q => q.photo_id == pid)
        (fun q => { q with status := QStatus.processing }) s.queue e he hqe)
      hqe

/-- Witness for C9 at a concrete input: the S3 download fails. -/
theorem early_error_fails_witness :
    ((([⟨1, 0, QStatus.pending, none⟩] : List QueueEntry).find?
        (fun q => q.photo_id == 0) = some ⟨1, 0, QStatus.pending, none⟩) ∧
     (∃ p, ([⟨0, 3, false, 5⟩] : List Photo).find? (fun q => q.id == 0)
        = some p) ∧
     ("Failed to download image from S3" : String) ≠ "") ∧
    (process_single_photo 1 ExtOutcome.download_fail 0
        ⟨[⟨0, 3, false, 5⟩], [], [], [⟨1, 0, QStatus.pending, none⟩]⟩
      = (set_failed 0 ("Failed to download image from S3")
          (set_status 0 QStatus.processing
            ⟨[⟨0, 3, false, 5⟩], [], [], [⟨1, 0, QStatus.pending, none⟩]⟩),
         PResult.err ("Failed to download image from S3")) ∧
     ("Failed to download image from S3" : String) ≠ "" ∧
     (process_single_photo 1 ExtOutcome.download_fail 0
        ⟨[⟨0, 3, false, 5⟩], [], [], [⟨1, 0, QStatus.pending,
          none⟩]⟩).1.photos = ([⟨0, 3, false, 5⟩] : List Photo) ∧
     (process_single_photo 1 ExtOutcome.download_fail 0
        ⟨[⟨0, 3, false, 5⟩], [], [], [⟨1, 0, QStatus.pending,
          none⟩]⟩).1.persons = ([] : List Person) ∧
     (process_single_photo 1 ExtOutcome.download_fail 0
        ⟨[⟨0, 3, false, 5⟩], [], [], [⟨1, 0, QStatus.pending,
          none⟩]⟩).1.queue.find? (fun q => q.photo_id == 0)
      = some { (⟨1, 0, QStatus.pending, none⟩ : QueueEntry) with
               status := QStatus.failed,
               error_message :=
                 some ("Failed to download image from S3") }) := by
  have h1 : ([⟨1, 0, QStatus.pending, none⟩] : List QueueEntry).find?
      (fun q => q.photo_id == 0) = some ⟨1, 0, QStatus.pending, none⟩ := by
    decide
  have h2 : ∃ p, ([⟨0, 3, false, 5⟩] : List Photo).find?
      (fun q => q.id == 0) = some p := ⟨⟨0, 3, false, 5⟩, by decide⟩
  have h3 : ("Failed to download image from S3" : String) ≠ "" := by decide
  exact ⟨⟨h1, h2, h3⟩,
    early_error_fails 1 0
      ⟨[⟨0, 3, false, 5⟩], [], [], [⟨1, 0, QStatus.pending, none⟩]⟩
      ⟨1, 0, QStatus.pending, none⟩ ExtOutcome.download_fail
      ("Failed to download image from S3") h1
      (Or.inr (Or.inl ⟨h2, rfl, rfl⟩)) h3⟩

/-- Claim C10: when an error is raised while handling face `k`, the
commit of the failure handler persists the failed status together with every
Person row and FaceMatch row produced for the earlier faces (the state
after the first `k` faces of the loop), while the photos table — and so
the Photo `processed` flag and `face_count` — keeps its pre-processing
values. -/
theorem midloop_failure_persists (tol : ℚ) (pid : ℕ) (s : DBState)
    (e : QueueEntry) (p : Photo) (fs : List Face) (k : ℕ) (msg : String)
    (he : s.queue.find? (fun q => q.photo_id == pid) = some e)
    (hp : s.photos.find? (fun q => q.id == pid) = some p)
    (hk : k < fs.length) :
    process_single_photo tol (ExtOutcome.detected fs (some (k, msg))) pid s
      = (set_failed pid msg
          { set_status pid QStatus.processing s with
              persons := ((run_faces tol pid (fs.take k) 0 none
                (init_work s.persons)).1).persons
              face_matches := s.face_matches ++
                ((run_faces tol pid (fs.take k) 0 none
                  (init_work s.persons)).1).new_matches },
         PResult.err msg) ∧
    (process_single_photo tol (ExtOutcome.detected fs (some (k, msg))) pid
        s).1.photos = s.photos ∧
    (process_single_photo tol (ExtOutcome.detected fs (some (k, msg))) pid
        s).1.queue.find? (fun q => q.photo_id == pid)
      = some { e with status := QStatus.failed,
                      error_message := some msg } := by
  have hqe := List.find?_some he
  have hne : ¬ (fs.length = 0) := by omega
  have hcut := run_faces_fail tol pid msg k fs 0 (init_work s.persons) hk
  rw [Nat.zero_add] at hcut
  have hmain : process_single_photo tol
      (ExtOutcome.detected fs (some (k, msg))) pid s
      = (set_failed pid msg
          { set_status pid QStatus.processing s with
              persons := ((run_faces tol pid (fs.take k) 0 none
                (init_work s.persons)).1).persons
              face_matches := s.face_matches ++
                ((run_faces tol pid (fs.take k) 0 none
                  (init_work s.persons)).1).new_matches },
         PResult.err msg) := by
    unfold process_single_photo
    simp only [he, set_status_photos, set_status_persons,
      set_status_face_matches, hp, if_neg hne, hcut]
  refine ⟨hmain, ?_, ?_⟩
  · rw [hmain]
    rfl
  · rw [hmain]
    simp only [set_failed, set_status]
    exact find?_updateFirst (fun q => q.photo_id == pid)
      (fun q => { q with status := QStatus.failed,
                         error_message := some msg }) _
      { e with status := QStatus.processing }
      (find?_updateFirst (fun q => q.photo_id == pid)
        (fun q => { q with status := QStatus.processing }) s.queue e he hqe)
      hqe

/-- Concrete detected faces for the C10 witness. -/
def c10_faces : List Face :=
  [{ encoding := [1], location := (0, 0, 0, 0), fresh_person_id := 4,
     fresh_match_id := 5, fresh_thumb_key := 6 },
   { encoding := [1], location := (0, 0, 0, 0), fresh_person_id := 7,
     fresh_match_id := 8, fresh_thumb_key := 9 }]

/-- Concrete state for the C10 witness. -/
def c10_state : DBState :=
  { photos := [{ id := 0, s3_key := 3, processed := false, face_count := 5 }]
    persons := []
    face_matches := []
    queue := [{ id := 1, photo_id := 0, status := QStatus.pending,
                error_message := none }] }

/-- Witness for C10 at a concrete input: two faces, an error injected at
face 1, so the Person and FaceMatch rows of face 0 are committed. -/
theorem midloop_failure_persists_witness :
    ((c10_state.queue.find? (fun q => q.photo_id == 0)
        = some { id := 1, photo_id := 0, status := QStatus.pending,
                 error_message := none }) ∧
     (c10_state.photos.find? (fun q => q.id == 0)
        = some { id := 0, s3_key := 3, processed := false,
                 face_count := 5 }) ∧
     1 < c10_faces.length) ∧
    (process_single_photo 1
        (ExtOutcome.detected c10_faces (some (1, ("boom")))) 0 c10_state
      = (set_failed 0 ("boom")
          { set_status 0 QStatus.processing c10_state with
              persons := ((run_faces 1 0 (c10_faces.take 1) 0 none
                (init_work c10_state.persons)).1).persons
              face_matches := c10_state.face_matches ++
                ((run_faces 1 0 (c10_faces.take 1) 0 none
                  (init_work c10_state.persons)).1).new_matches },
         PResult.err ("boom")) ∧
     (process_single_photo 1
        (ExtOutcome.detected c10_faces (some (1, ("boom")))) 0
        c10_state).1.photos = c10_state.photos ∧
     (process_single_photo 1
        (ExtOutcome.detected c10_faces (some (1, ("boom")))) 0
        c10_state).1.queue.find? (fun q => q.photo_id == 0)
       = some { ({ id := 1, photo_id := 0, status := QStatus.pending,
                   error_message := none } : QueueEntry) with
                status := QStatus.failed,
                error_message := some ("boom") }) := by
  have h1 : c10_state.queue.find? (fun q => q.photo_id == 0)
      = some { id := 1, photo_id := 0, status := QStatus.pending,
               error_message := none } := by decide
  have h2 : c10_state.photos.find? (fun q => q.id == 0)
      = some { id := 0, s3_key := 3, processed := false,
               face_count := 5 } := by decide
  have h3 : 1 < c10_faces.length := by decide
  exact ⟨⟨h1, h2, h3⟩, midloop_failure_persists 1 0 c10_state _ _ c10_faces
    1 ("boom") h1 h2 h3⟩

end FaceApp
